import Mathlib

/-!
Verification development for the plan-document engine of the `ollama-agent`
repository.  The TypeScript sources (the `PlanSerializer`, `PlanDeserializer`,
`PlanManager`, `MessageHistoryManager`, `ExecutionStage` and orchestration
classes embedded in the repository documents, plus `SimpleOrchestrator` and
`OllamaClient` under `src/`) are shallowly embedded as executable Lean
definitions.

Modelling conventions, used throughout:

* JavaScript strings are modelled as `String` / `List Char`; a JS string index
  is a character index (all characters appearing in the texts below are in the
  Basic Multilingual Plane, where JS UTF-16 indexing and character indexing
  agree).
* `Date.now()` is threaded explicitly as a `now : Int` parameter.
* The process-local timezone is taken to be UTC, so `Date.toTimeString` and
  `Date.toISOString` read off the same clock.
* A JS `number` that can be `NaN` is modelled as `Option Int` (`none` = NaN);
  fields that are provably never `NaN` are plain `Int`.
* I/O (HTTP calls to the model backend, file system, tool execution) is
  abstracted into explicit function parameters ("oracles") and explicit
  store values.
* Regular-expression matching with the fixed patterns of the source is
  implemented by dedicated scanning functions that follow the backtracking
  semantics of those concrete patterns.
-/

namespace Js

/-- The whitespace characters recognised by the `\s` class and `trim` for the
ASCII texts manipulated here (the source engine additionally accepts rare
Unicode space characters, which never occur in these documents). -/
def jsIsSpace (c : Char) : Bool :=
  c = ' ' || c = '\t' || c = '\n' || c = '\r' || c = '\x0b' || c = '\x0c'

/-- The `\w` character class: ASCII letters, digits and underscore. -/
def jsIsWord (c : Char) : Bool :=
  ('a' ≤ c && c ≤ 'z') || ('A' ≤ c && c ≤ 'Z') || ('0' ≤ c && c ≤ '9') || c = '_'

/-- The `\d` character class. -/
def jsIsDigit (c : Char) : Bool := '0' ≤ c && c ≤ '9'

/-- `String.prototype.trim` on a character list. -/
def trimChars (l : List Char) : List Char :=
  ((l.dropWhile jsIsSpace).reverse.dropWhile jsIsSpace).reverse

/-- First (character) index at which `pat` occurs as a contiguous
subsequence of `hay`. -/
def findSub (pat : List Char) : List Char → Option Nat
  | [] => if pat.isEmpty then some 0 else none
  | c :: t => if pat.isPrefixOf (c :: t) then some 0 else (findSub pat t).map (· + 1)

/-- `String.prototype.split` with a one-character separator. -/
def splitOnChar (sep : Char) : List Char → List (List Char)
  | [] => [[]]
  | c :: rest =>
    let r := splitOnChar sep rest
    if c = sep then [] :: r
    else
      match r with
      | [] => [[c]]
      | s :: ss => (c :: s) :: ss

/-- Fuel-driven worker for `splitOnSub`; `fuel` bounds the number of consumed
characters, so `fuel = hay.length` always suffices. -/
def splitOnSubGo (sep : List Char) : Nat → List Char → List Char → List (List Char)
  | 0, rest, acc => [acc.reverse ++ rest]
  | _ + 1, [], acc => [acc.reverse]
  | fuel + 1, c :: rest, acc =>
    if sep.isPrefixOf (c :: rest) then
      acc.reverse :: splitOnSubGo sep fuel ((c :: rest).drop sep.length) []
    else
      splitOnSubGo sep fuel rest (c :: acc)

/-- `String.prototype.split` with a non-empty multi-character separator:
non-overlapping occurrences, scanned left to right. -/
def splitOnSub (sep hay : List Char) : List (List Char) :=
  splitOnSubGo sep hay.length hay []

/-- Lowercasing as performed by `String.prototype.toLowerCase` on ASCII. -/
def lowerChar (c : Char) : Char :=
  if 'A' ≤ c && c ≤ 'Z' then Char.ofNat (c.toNat + 32) else c

/-- `Number.parseInt(s, 10)`: optional sign followed by a maximal digit run;
`none` models `NaN`. -/
def jsParseInt (l : List Char) : Option Int :=
  let l := l.dropWhile jsIsSpace
  let (neg, l) :=
    match l with
    | '-' :: t => (true, t)
    | '+' :: t => (false, t)
    | _ => (false, l)
  let digits := l.takeWhile jsIsDigit
  if digits.isEmpty then none
  else
    let n : Nat := digits.foldl (fun a c => a * 10 + (c.toNat - '0'.toNat)) 0
    some (if neg then -(n : Int) else (n : Int))

/-- JS truthiness of a possibly-`NaN` number: `NaN` and `0` are falsy. -/
def numTruthy : Option Int → Bool
  | none => false
  | some i => i ≠ 0

end Js

namespace PlanDoc

/-! Data model of `PROMPTS.md` §4.1 (`src/domain/plan` types). -/

inductive PlanStatus
  | planning | in_progress | blocked | completed | failed
deriving DecidableEq, Repr

def PlanStatus.toStr : PlanStatus → String
  | .planning => "planning"
  | .in_progress => "in_progress"
  | .blocked => "blocked"
  | .completed => "completed"
  | .failed => "failed"

structure AcceptanceCriterion where
  description : String
  completed : Bool
  notes : Option String
deriving DecidableEq, Repr

structure Decision where
  title : String
  rationale : String
  alternatives : Option (List String)
  /-- Epoch milliseconds; `none` models a `NaN` timestamp. -/
  timestamp : Option Int
deriving DecidableEq, Repr

structure LogEntry where
  /-- Epoch milliseconds; `none` models a `NaN` timestamp. -/
  timestamp : Option Int
  action : String
  result : String
  toolsUsed : List String
deriving DecidableEq, Repr

structure PlanMetadata where
  createdAt : Int
  updatedAt : Int
  version : Int
deriving DecidableEq, Repr

structure Plan where
  status : PlanStatus
  goal : String
  acceptanceCriteria : List AcceptanceCriterion
  decisionsMade : List Decision
  decisionsRejected : List Decision
  executionLog : List LogEntry
  metadata : PlanMetadata
deriving DecidableEq, Repr

end PlanDoc

namespace PlanDoc

/-! Calendar arithmetic for `Date.prototype.toISOString` /
`Date.prototype.toTimeString` and for parsing `YYYY-MM-DDTHH:mm:00` strings
(civil-from-days and days-from-civil in the proleptic Gregorian calendar). -/

/-- Civil date `(year, month, day)` of a day count relative to 1970-01-01. -/
def civilFromDays (z : Int) : Int × Int × Int :=
  let z := z + 719468
  let era := z.ediv 146097
  let doe := z - era * 146097
  let yoe := (doe - doe.ediv 1460 + doe.ediv 36524 - doe.ediv 146096).ediv 365
  let y := yoe + era * 400
  let doy := doe - (365 * yoe + yoe.ediv 4 - yoe.ediv 100)
  let mp := (5 * doy + 2).ediv 153
  let d := doy - (153 * mp + 2).ediv 5 + 1
  let m := mp + (if mp < 10 then 3 else -9)
  (y + (if m ≤ 2 then 1 else 0), m, d)

/-- Day count relative to 1970-01-01 of a civil date. -/
def daysFromCivil (y m d : Int) : Int :=
  let y := y - (if m ≤ 2 then 1 else 0)
  let era := y.ediv 400
  let yoe := y - era * 400
  let doy := (153 * (m + (if m > 2 then -3 else 9)) + 2).ediv 5 + d - 1
  let doe := yoe * 365 + yoe.ediv 4 - yoe.ediv 100 + doy
  era * 146097 + doe - 719468

/-- Left-pad the decimal representation of a non-negative integer. -/
def padNum (width : Nat) (i : Int) : String :=
  let s := toString i.toNat
  String.mk (List.replicate (width - s.length) '0') ++ s

/-- The date half of `new Date(t).toISOString()` (what
`toISOString().split('T')[0]` yields). -/
def isoDateOf (t : Int) : String :=
  let (y, m, d) := civilFromDays (t.ediv 86400000)
  padNum 4 y ++ "-" ++ padNum 2 m ++ "-" ++ padNum 2 d

/-- The `HH:MM` half of `new Date(t).toTimeString().slice(0, 5)`, with the
process timezone fixed to UTC. -/
def hhmmOf (t : Int) : String :=
  padNum 2 ((t.ediv 3600000).emod 24) ++ ":" ++ padNum 2 ((t.ediv 60000).emod 60)

/-- Date and time strings written by the serializer for one timestamp.  For a
`NaN` timestamp the source raises a `RangeError` inside `toISOString`; that
case never arises for the plans considered below and is rendered as a fixed
marker string here. -/
def dateTimeStrings : Option Int → String × String
  | some t => (isoDateOf t, hhmmOf t)
  | none => ("Invalid", "Date")

/-! `PlanSerializer` (`PROMPTS.md` §4.3.3, `src/domain/plan/PlanSerializer.ts`). -/

def serializeAcceptanceCriteria (criteria : List AcceptanceCriterion) : String :=
  if criteria.isEmpty then
    "## Acceptance Criteria\n- [ ] [Criteria will be added once goal is defined]"
  else
    let items := criteria.map fun c =>
      let checkbox := if c.completed then "[x]" else "[ ]"
      -- `c.notes ? ... : ''`: an absent or empty (falsy) notes string adds nothing.
      let notes :=
        match c.notes with
        | some n => if n = "" then "" else " *(" ++ n ++ ")*"
        | none => ""
      "- " ++ checkbox ++ " " ++ c.description ++ notes
    "## Acceptance Criteria\n" ++ String.intercalate "\n" items

def decisionSection (altLabel tsLabel : String) (d : Decision) : String :=
  let (date, time) := dateTimeStrings d.timestamp
  let base := "\n### " ++ d.title ++ "\n**Rationale:** " ++ d.rationale
  -- `d.alternatives && d.alternatives.length > 0`
  let withAlt :=
    match d.alternatives with
    | some alts =>
      if alts.isEmpty then base
      else base ++ "\n" ++ altLabel ++ " " ++ String.intercalate ", " alts
    | none => base
  withAlt ++ "\n" ++ tsLabel ++ " " ++ date ++ " " ++ time

def serializeDecisionsMade (decisions : List Decision) : String :=
  if decisions.isEmpty then "\n## Decisions Made\n[No decisions yet]"
  else
    "\n## Decisions Made" ++
      String.intercalate "\n"
        (decisions.map (decisionSection "**Alternatives considered:**" "**Decided:**"))

def serializeDecisionsRejected (decisions : List Decision) : String :=
  if decisions.isEmpty then "\n## Decisions Rejected\n[No rejected decisions yet]"
  else
    "\n## Decisions Rejected" ++
      String.intercalate "\n"
        (decisions.map (decisionSection "**Alternative:**" "**Rejected:**"))

def serializeExecutionLog (log : List LogEntry) : String :=
  if log.isEmpty then "\n## Execution Log\n[No actions taken yet]"
  else
    let entries := log.map fun entry =>
      let (date, time) := dateTimeStrings entry.timestamp
      "\n### " ++ date ++ " " ++ time ++ " - " ++ entry.action ++
        "\n**Tools:** " ++ String.intercalate ", " entry.toolsUsed ++
        "\n**Result:** " ++ entry.result
    "\n## Execution Log" ++ String.intercalate "\n" entries

/-- `PlanSerializer.serialize`: YAML frontmatter followed by the five
markdown sections. -/
def serialize (plan : Plan) : String :=
  let frontmatter := String.intercalate "\n"
    [ "---"
    , "status: " ++ plan.status.toStr
    , "createdAt: " ++ toString plan.metadata.createdAt
    , "updatedAt: " ++ toString plan.metadata.updatedAt
    , "version: " ++ toString plan.metadata.version
    , "---"
    , "" ]
  let body := String.intercalate "\n"
    [ "# Plan: " ++ (if plan.goal = "" then "[Goal to be defined]" else plan.goal)
    , ""
    , "**Status:** " ++ plan.status.toStr
    , ""
    , "## Goal"
    , (if plan.goal = "" then "[User will provide goal]" else plan.goal)
    , ""
    , serializeAcceptanceCriteria plan.acceptanceCriteria
    , serializeDecisionsMade plan.decisionsMade
    , serializeDecisionsRejected plan.decisionsRejected
    , serializeExecutionLog plan.executionLog ]
  frontmatter ++ body

end PlanDoc

namespace Js

/-- Scan `hay` left to right for an occurrence of the literal `pat` at which
the continuation `f` (the rest of the regular expression, applied to the text
after the literal) succeeds; on failure resume scanning one character later.
This is the backtracking behaviour of a JS regex of shape `literal‹tail›`
whose literal part cannot partially overlap a successful match. -/
def scanFor (pat : List Char) (f : List Char → Option α) : List Char → Option α
  | [] => none
  | c :: t =>
    if pat.isPrefixOf (c :: t) then
      match f ((c :: t).drop pat.length) with
      | some r => some r
      | none => scanFor pat f t
    else scanFor pat f t

/-- The `\s*([^\n]+)` tail: a greedy whitespace skip followed by a non-empty
capture of non-newline characters, with the backtracking into the whitespace
run that the JS engine performs when the greedy skip reaches a position where
`[^\n]+` cannot start. -/
def matchSpaceLine (rest : List Char) : Option (List Char) :=
  match rest.dropWhile jsIsSpace with
  | [] =>
    -- the whole text is whitespace: capture the last of its characters that
    -- is not a newline, if any (everything after it is newlines)
    (match rest.reverse.dropWhile (· = '\n') with
     | [] => none
     | c :: _ => some [c])
  | c :: t =>
    -- the first non-whitespace character is in particular not a newline
    some ((c :: t).takeWhile (· ≠ '\n'))

/-- The `\s*([^*]+)` tail (same backtracking discipline, now stopping the
capture at an asterisk, which unlike the newline may also be the character
that terminates the whitespace skip). -/
def matchStarTail (rest : List Char) : Option (List Char) :=
  match rest.dropWhile jsIsSpace with
  | [] =>
    (match rest.reverse with
     | [] => none
     | c :: _ => some [c])
  | '*' :: _ =>
    (match (rest.takeWhile jsIsSpace).reverse with
     | [] => none
     | c :: _ => some [c])
  | c :: t => some ((c :: t).takeWhile (· ≠ '*'))

/-- Exactly `n` decimal digits, returning their value and the rest. -/
def digitsN : Nat → Nat → List Char → Option (Nat × List Char)
  | 0, acc, l => some (acc, l)
  | n + 1, acc, l =>
    match l with
    | c :: t => if jsIsDigit c then digitsN n (acc * 10 + (c.toNat - '0'.toNat)) t else none
    | [] => none

/-- One expected literal character. -/
def expectChar (c : Char) : List Char → Option (List Char)
  | x :: t => if x = c then some t else none
  | [] => none

end Js

namespace PlanDoc

open Js

/-! `PlanDeserializer` (`PROMPTS.md` §4.3.4, `src/domain/plan/PlanDeserializer.ts`). -/

structure ParseError where
  message : String
  markdown : String
  suggestedPrompt : String
deriving DecidableEq, Repr

/-- `Result<Plan, ParseError>` with the source field names. -/
inductive DResult
  | success (value : Plan)
  | failure (error : ParseError)
deriving DecidableEq, Repr

/-- `extractFrontmatter`: match `^---\n([\s\S]*?)\n---\n([\s\S]*)$` (the lazy
group ends at the first later `\n---\n`); on failure synthesize the default
header block and treat the whole input as body. -/
def extractFrontmatter (markdown : List Char) : List Char × List Char :=
  if "---\n".toList.isPrefixOf markdown then
    match findSub "\n---\n".toList (markdown.drop 4) with
    | some i => ((markdown.drop 4).take i, markdown.drop (4 + i + 5))
    | none => ("status: planning\ncreatedAt: 0\nupdatedAt: 0\nversion: 1".toList, markdown)
  else
    ("status: planning\ncreatedAt: 0\nupdatedAt: 0\nversion: 1".toList, markdown)

/-- The three assignable slots of the `Partial<PlanMetadata>` record; the
outer `Option` is "key never assigned", the inner one is `NaN`. -/
structure MetaDraft where
  createdAt : Option (Option Int) := none
  updatedAt : Option (Option Int) := none
  version : Option (Option Int) := none

/-- `draft || fallback` for one metadata slot: `undefined`, `NaN` and `0` all
fall back. -/
def MetaDraft.resolve (slot : Option (Option Int)) (fallback : Int) : Int :=
  match slot with
  | some (some i) => if i = 0 then fallback else i
  | _ => fallback

/-- `parseMetadata`: split the header into lines, split each line at `:`,
`parseInt` the recognised keys, then apply the `|| Date.now()` / `|| 1`
fallbacks. -/
def parseMetadata (frontmatter : List Char) (now : Int) : PlanMetadata :=
  let step : MetaDraft → List Char → MetaDraft := fun md line =>
    let parts := (splitOnChar ':' line).map trimChars
    let key := parts.headD []
    let value : Option (List Char) := parts[1]?
    -- `value || '0'` / `value || '1'`: an absent or empty value falls back
    let valueOr : List Char → List Char := fun dflt =>
      match value with
      | some v => if v.isEmpty then dflt else v
      | none => dflt
    if key = "createdAt".toList then { md with createdAt := some (jsParseInt (valueOr "0".toList)) }
    else if key = "updatedAt".toList then { md with updatedAt := some (jsParseInt (valueOr "0".toList)) }
    else if key = "version".toList then { md with version := some (jsParseInt (valueOr "1".toList)) }
    else md
  let md := (splitOnChar '\n' frontmatter).foldl step {}
  { createdAt := MetaDraft.resolve md.createdAt now
  , updatedAt := MetaDraft.resolve md.updatedAt now
  , version := MetaDraft.resolve md.version 1 }

def validStatusOfString (s : String) : Option PlanStatus :=
  if s = "planning" then some .planning
  else if s = "in_progress" then some .in_progress
  else if s = "blocked" then some .blocked
  else if s = "completed" then some .completed
  else if s = "failed" then some .failed
  else none

/-- `parseStatus`: first `**Status:**\s*(\w+)` match, lowercased, checked
against the valid status list; `planning` otherwise. -/
def parseStatus (body : List Char) : PlanStatus :=
  let matched := scanFor "**Status:**".toList
    (fun rest =>
      let word := (rest.dropWhile jsIsSpace).takeWhile jsIsWord
      if word.isEmpty then none else some word)
    body
  match matched with
  | some w =>
    match validStatusOfString (String.mk (w.map lowerChar)) with
    | some st => st
    | none => .planning
  | none => .planning

/-- `parseGoal`: first `## Goal\n([^\n]+)` match, trimmed; the empty goal and
the serializer placeholder both yield the empty string. -/
def parseGoal (body : List Char) : String :=
  let matched := scanFor "## Goal\n".toList
    (fun rest =>
      let cap := rest.takeWhile (· ≠ '\n')
      if cap.isEmpty then none else some cap)
    body
  match matched with
  | some cap =>
    let goal := String.mk (trimChars cap)
    if goal = "" ∨ goal = "[User will provide goal]" then "" else goal
  | none => ""

/-- `extractSection`: first match of `## ‹name›\n([\s\S]*?)(?=\n## |$)` —
the lazy capture runs up to the first subsequent `\n## ` (or the end of the
document) — trimmed, an empty capture counting as a missing section. -/
def extractSection (body : List Char) (name : String) : Option (List Char) :=
  match scanFor ("## " ++ name ++ "\n").toList
      (fun rest =>
        some (match findSub "\n## ".toList rest with
              | some i => rest.take i
              | none => rest))
      body with
  | some cap =>
    let t := trimChars cap
    if t.isEmpty then none else some t
  | none => none

end PlanDoc

namespace PlanDoc

open Js

/-- `/\[(x|X|✓|✔)\]/.test(line)`: does a bracketed recognised checked glyph
occur anywhere in the line? -/
def hasCheckedBox : List Char → Bool
  | '[' :: c :: ']' :: rest =>
    if c = 'x' ∨ c = 'X' ∨ c = '✓' ∨ c = '✔' then true
    else hasCheckedBox (c :: ']' :: rest)
  | _ :: t => hasCheckedBox t
  | [] => false

/-- First match of `\[.\]\s*([^*]+)` (the checkbox-description capture);
after a failing occurrence the scan resumes one character later. -/
def descScan : List Char → Option (List Char)
  | '[' :: c :: ']' :: rest =>
    match (if c = '\n' then none else matchStarTail rest) with
    | some cap => some cap
    | none => descScan (c :: ']' :: rest)
  | _ :: t => descScan t
  | [] => none

/-- First match of `\*\(([^)]+)\)\*` (the notes capture). -/
def notesScan : List Char → Option (List Char)
  | '*' :: '(' :: rest =>
    let cap := rest.takeWhile (· ≠ ')')
    if cap.isEmpty then notesScan ('(' :: rest)
    else
      match rest.drop cap.length with
      | ')' :: '*' :: _ => some cap
      | _ => notesScan ('(' :: rest)
  | _ :: t => notesScan t
  | [] => none

/-- One checkbox line of the Acceptance Criteria section, as mapped by
`parseAcceptanceCriteria` (before the empty-description filter). -/
def parseCriterionLine (line : List Char) : AcceptanceCriterion :=
  { description :=
      match descScan line with
      | some cap => String.mk (trimChars cap)
      | none => ""
  , completed := hasCheckedBox line
  , notes := (notesScan line).map String.mk }

/-- The filter keeping the lines whose trimmed text starts with a dash. -/
def isDashLine (line : List Char) : Bool :=
  (trimChars line).headD ' ' = '-'

/-- `parseAcceptanceCriteria`: extract the section, keep the dash lines, map
each through the checkbox/description/notes captures, and drop entries with
an empty description. -/
def parseAcceptanceCriteria (body : List Char) : List AcceptanceCriterion :=
  match extractSection body "Acceptance Criteria" with
  | none => []
  | some sec =>
    let lines := (splitOnChar '\n' sec).filter isDashLine
    (lines.map parseCriterionLine).filter (fun c => c.description ≠ "")

/-- Number of days of a month in the proleptic Gregorian calendar. -/
def daysInMonth (y m : Nat) : Nat :=
  if m = 2 then (if y % 4 = 0 ∧ (y % 100 ≠ 0 ∨ y % 400 = 0) then 29 else 28)
  else if m = 4 ∨ m = 6 ∨ m = 9 ∨ m = 11 then 30
  else 31

/-- `new Date("YYYY-MM-DDTHH:mm:00").getTime()` with the process timezone
fixed to UTC; `none` models the `NaN` of an invalid component combination
(the ES date-time format also admits the exact instant `24:00`). -/
def jsDateMs (y mo d hh mi : Nat) : Option Int :=
  if 1 ≤ mo ∧ mo ≤ 12 ∧ 1 ≤ d ∧ d ≤ daysInMonth y mo ∧
      ((hh ≤ 23 ∧ mi ≤ 59) ∨ (hh = 24 ∧ mi = 0)) then
    some ((((daysFromCivil y mo d) * 24 + hh) * 60 + mi) * 60000)
  else none

/-- The `\s*(\d{4}-\d{2}-\d{2})\s*(\d{2}:\d{2})` tail of the decision
timestamp pattern, after the `Decided:**` / `Rejected:**` head. -/
def dateTimeAfter (rest : List Char) : Option (Nat × Nat × Nat × Nat × Nat) :=
  let rest := rest.dropWhile jsIsSpace
  match digitsN 4 0 rest with
  | none => none
  | some (y, r1) =>
    match expectChar '-' r1 with
    | none => none
    | some r2 =>
      match digitsN 2 0 r2 with
      | none => none
      | some (mo, r3) =>
        match expectChar '-' r3 with
        | none => none
        | some r4 =>
          match digitsN 2 0 r4 with
          | none => none
          | some (d, r5) =>
            let r5 := r5.dropWhile jsIsSpace
            match digitsN 2 0 r5 with
            | none => none
            | some (hh, r6) =>
              match expectChar ':' r6 with
              | none => none
              | some r7 =>
                match digitsN 2 0 r7 with
                | none => none
                | some (mi, _) => some (y, mo, d, hh, mi)

/-- First match of `(Decided|Rejected):\*\*\s*(\d{4}-\d{2}-\d{2})\s*(\d{2}:\d{2})`. -/
def timestampScan : List Char → Option (Nat × Nat × Nat × Nat × Nat)
  | [] => none
  | l@(_ :: t) =>
    let attempt :=
      if "Decided:**".toList.isPrefixOf l then dateTimeAfter (l.drop 10)
      else if "Rejected:**".toList.isPrefixOf l then dateTimeAfter (l.drop 11)
      else none
    match attempt with
    | some r => some r
    | none => timestampScan t

/-- First match of `\*\*Alternatives[^:]*:\*\*\s*([^\n]+)`: after the literal
head, the greedy `[^:]*` runs to the first colon (crossing line breaks), which
must be followed by `**`. -/
def altScan : List Char → Option (List Char) :=
  scanFor "**Alternatives".toList fun rest =>
    let skip := rest.takeWhile (· ≠ ':')
    match rest.drop skip.length with
    | ':' :: '*' :: '*' :: r => matchSpaceLine r
    | _ => none

/-- `parseDecisions` for one `### `-subsection. -/
def parseDecisionSub (now : Int) (sub : List Char) : Option Decision :=
  let lines := splitOnChar '\n' sub
  let title := String.mk (trimChars (lines.headD []))
  let rationale :=
    match scanFor "**Rationale:**".toList matchSpaceLine sub with
    | some cap => String.mk (trimChars cap)
    | none => ""
  let alternatives : Option (List String) :=
    (altScan sub).map fun cap =>
      ((splitOnChar ',' cap).map (fun s => String.mk (trimChars s))).filter (· ≠ "")
  let timestamp : Option Int :=
    match timestampScan sub with
    | some (y, mo, d, hh, mi) => jsDateMs y mo d hh mi
    | none => some now
  if title ≠ "" ∧ rationale ≠ "" then
    some { title, rationale, alternatives, timestamp }
  else none

/-- `parseDecisions`: extract the section, split on `\n### ` sub-headings,
drop the part before the first sub-heading, and keep the subsections with a
title and a rationale. -/
def parseDecisions (body : List Char) (sectionName : String) (now : Int) : List Decision :=
  match extractSection body sectionName with
  | none => []
  | some sec =>
    let subsections := (splitOnSub "\n### ".toList sec).drop 1
    subsections.filterMap (parseDecisionSub now)

/-- First match of `(\d{4}-\d{2}-\d{2})\s*(\d{2}:\d{2})\s*-\s*(.+)` in an
execution-log sub-heading line. -/
def headerScan : List Char → Option ((Nat × Nat × Nat × Nat × Nat) × List Char)
  | [] => none
  | l@(_ :: t) =>
    let attempt :=
      match dateTimeAfter l with
      | none => none
      | some parts =>
        -- re-walk the matched prefix to reach the `\s*-\s*(.+)` tail
        match afterDateTime l with
        | none => none
        | some rest =>
          match expectChar '-' (rest.dropWhile jsIsSpace) with
          | none => none
          | some r => (matchSpaceLine r).map (fun cap => (parts, cap))
    match attempt with
    | some r => some r
    | none => headerScan t
where
  /-- The rest of the text after the `\d{4}-\d{2}-\d{2}\s*\d{2}:\d{2}` prefix. -/
  afterDateTime (l : List Char) : Option (List Char) :=
    match digitsN 4 0 l with
    | none => none
    | some (_, r1) =>
      match expectChar '-' r1 with
      | none => none
      | some r2 =>
        match digitsN 2 0 r2 with
        | none => none
        | some (_, r3) =>
          match expectChar '-' r3 with
          | none => none
          | some r4 =>
            match digitsN 2 0 r4 with
            | none => none
            | some (_, r5) =>
              let r5 := r5.dropWhile jsIsSpace
              match digitsN 2 0 r5 with
              | none => none
              | some (_, r6) =>
                match expectChar ':' r6 with
                | none => none
                | some r7 => (digitsN 2 0 r7).map Prod.snd

end PlanDoc

namespace PlanDoc

open Js

/-- `parseExecutionLog` for one `### `-subsection. -/
def parseLogSub (sub : List Char) : Option LogEntry :=
  let lines := splitOnChar '\n' sub
  match headerScan (lines.headD []) with
  | none => none
  | some ((y, mo, d, hh, mi), action) =>
    let toolsUsed :=
      match scanFor "**Tools:**".toList matchSpaceLine sub with
      | some cap => ((splitOnChar ',' cap).map (fun s => String.mk (trimChars s))).filter (· ≠ "")
      | none => []
    let result :=
      match scanFor "**Result:**".toList matchSpaceLine sub with
      | some cap => String.mk (trimChars cap)
      | none => ""
    some { timestamp := jsDateMs y mo d hh mi
         , action := String.mk action
         , result
         , toolsUsed }

/-- `parseExecutionLog`: extract the section, split on `\n### `, drop the
part before the first sub-heading, and keep the subsections whose heading
line carries a date, a time and an action. -/
def parseExecutionLog (body : List Char) : List LogEntry :=
  match extractSection body "Execution Log" with
  | none => []
  | some sec =>
    let subsections := (splitOnSub "\n### ".toList sec).drop 1
    subsections.filterMap parseLogSub

/-- `generateRetryPrompt`: the corrective prompt sent back to the model when
deserialization reports a failure. -/
def generateRetryPrompt (errorMessage : String) (now : Int) : String :=
  "The previous plan format was invalid: " ++ errorMessage ++
  "\n\nPlease regenerate the plan following this EXACT format:\n\n---\nstatus: planning\ncreatedAt: " ++
  toString now ++ "\nupdatedAt: " ++ toString now ++
  "\nversion: 1\n---\n\n# Plan: [Your Goal]\n\n**Status:** planning\n\n## Goal\n[Clear goal description]\n\n## Acceptance Criteria\n- [ ] First criterion\n- [ ] Second criterion\n\n## Decisions Made\n[If no decisions yet, write: \"No decisions yet\"]\n\n## Decisions Rejected\n[If no rejected decisions, write: \"No rejected decisions yet\"]\n\n## Execution Log\n[If no actions yet, write: \"No actions taken yet\"]\n\nCRITICAL RULES:\n- Use lowercase status values: planning, in_progress, blocked, completed, failed\n- Use [ ] for incomplete, [x] for complete checkboxes\n- Include all 5 sections even if empty\n- YAML frontmatter must be valid"

/-- `PlanDeserializer.deserialize`.  The source wraps the body in
`try/catch`, but none of the operations it performs can throw on a string
input, so the success branch is always taken; the embedding therefore always
returns `DResult.success`.  (`sessionId`, received and ignored by the source,
is omitted; `Date.now()` is the `now` parameter.) -/
def deserialize (markdown : String) (now : Int) : DResult :=
  let md := markdown.toList
  let (frontmatter, body) := extractFrontmatter md
  DResult.success
    { status := parseStatus body
    , goal := parseGoal body
    , acceptanceCriteria := parseAcceptanceCriteria body
    , decisionsMade := parseDecisions body "Decisions Made" now
    , decisionsRejected := parseDecisions body "Decisions Rejected" now
    , executionLog := parseExecutionLog body
    , metadata := parseMetadata frontmatter now }

/-! `PlanManager` of `PROMPTS.md` §4.3.6 (fault tolerance): persistence and
recovery around the serializer/deserializer pair.  The file system is an
explicit `Store`; the model backend is an oracle function. -/

/-- The on-disk session directory: a map from paths to file contents. -/
def Store := String → Option String

/-- `path.join(sessionPath, planFile)` for the well-formed paths used here. -/
def planPath (sessionPath : String) : String := sessionPath ++ "/plan_doc.md"

/-- `PlanManager.savePlan`: serialize and write unconditionally — there is no
read of the stored version and no conflict check. -/
def savePlan (sessionPath : String) (plan : Plan) (store : Store) : Store :=
  fun p => if p = planPath sessionPath then some (serialize plan) else store p

/-- `PlanManager.getDefaultPlan`. -/
def getDefaultPlan (now : Int) : Plan :=
  { status := .planning
  , goal := ""
  , acceptanceCriteria := []
  , decisionsMade := []
  , decisionsRejected := []
  , executionLog := []
  , metadata := { createdAt := now, updatedAt := now, version := 1 } }

/-- `PlanManager.retryWithLLM`: one corrective model call (the oracle
`ollamaFix`, standing for `this.ollama.call` with the error's suggested
prompt), one re-run of the injected deserializer, default plan on a second
failure.  Returns the plan together with the number of model calls made (the
`savePlan` write performed on a successful retry is not needed by the claims
and is not threaded here). -/
def retryWithLLM (des : String → DResult) (ollamaFix : String → ParseError → String)
    (now : Int) (malformedMarkdown : String) (error : ParseError) : Plan × Nat :=
  let fixedMarkdown := ollamaFix malformedMarkdown error
  match des fixedMarkdown with
  | .success value => (value, 1)
  | .failure _ => (getDefaultPlan now, 1)

/-- `PlanManager.loadPlan` on already-read file text: run the injected
deserializer; on failure hand over to `retryWithLLM`.  The second component
counts the corrective model calls issued. -/
def loadPlan (des : String → DResult) (ollamaFix : String → ParseError → String)
    (now : Int) (markdown : String) : Plan × Nat :=
  match des markdown with
  | .success value => (value, 0)
  | .failure error => retryWithLLM des ollamaFix now markdown error

end PlanDoc

namespace MessageHistory

/-! `MessageHistoryManager` (`PROMPTS.md` §7.3).  The manager state is the
`history` array; the JS object-identity `findIndex` locates the position of
the `(length - maxUserMessages)`-th user message, which is what `dropUsers`
computes positionally. -/

inductive Role
  | user | assistant
deriving DecidableEq, Repr

structure Message where
  role : Role
  content : String
  timestamp : Int
deriving DecidableEq, Repr

def maxUserMessages : Nat := 5

def countUser (history : List Message) : Nat :=
  (history.filter (fun m => m.role = Role.user)).length

/-- The suffix of `history` beginning at its `n`-th (0-indexed) user message
— `history.slice(keepFromIndex)` for
`keepFromIndex = findIndex of userMessages[n]`. -/
def dropUsers : Nat → List Message → List Message
  | _, [] => []
  | n, m :: t =>
    if m.role = Role.user then
      (match n with
       | 0 => m :: t
       | k + 1 => dropUsers k t)
    else dropUsers n t

/-- `truncate`: when more than `maxUserMessages` user messages are present,
keep the suffix starting at the oldest retained user message. -/
def truncateHistory (history : List Message) : List Message :=
  let userMessages := history.filter (fun m => m.role = Role.user)
  if userMessages.length > maxUserMessages then
    dropUsers (userMessages.length - maxUserMessages) history
  else history

def addUserMessage (content : String) (now : Int) (history : List Message) : List Message :=
  truncateHistory (history ++ [{ role := .user, content, timestamp := now }])

def addAssistantMessage (content : String) (now : Int) (history : List Message) : List Message :=
  history ++ [{ role := .assistant, content, timestamp := now }]

/-- One call to the manager: which method, with which content and clock. -/
inductive HOp
  | user (content : String) (now : Int)
  | assistant (content : String) (now : Int)

def HOp.message : HOp → Message
  | .user c t => { role := .user, content := c, timestamp := t }
  | .assistant c t => { role := .assistant, content := c, timestamp := t }

def applyOp (history : List Message) : HOp → List Message
  | .user c t => addUserMessage c t history
  | .assistant c t => addAssistantMessage c t history

/-- The manager history after a sequence of calls, starting empty. -/
def runOps (ops : List HOp) : List Message :=
  ops.foldl applyOp []

/-- All messages ever appended, in order (the untrimmed transcript). -/
def allMessages (ops : List HOp) : List Message :=
  ops.map HOp.message

end MessageHistory

namespace ExecStage

/-! `ExecutionStage` (`PROMPTS.md` §3.4.3).  The model call, the message
history bookkeeping and the tool dispatch inside the loop do not influence
the control flow below, which depends only on how each attempt's response
parses; the composition `parseResponse(ollama.call(...).message.content)` at
attempt `i` is therefore abstracted into an oracle `parsed i`, and the user
approval prompt into an oracle `approval i`. -/

structure ToolCall where
  name : String
  parameters : String
deriving DecidableEq, Repr

/-- The discriminated union produced by response parsing; `malformed` stands
for a response that is none of the recognised shapes. -/
inductive ParsedResponse
  | tool_calls (calls : List ToolCall)
  | response (r : String)
  | request_approval (question : String)
  | malformed
deriving DecidableEq, Repr

inductive TStatus
  | success | failed
deriving DecidableEq, Repr

/-- `TaskResult`, with absent optional fields as `none`. -/
structure TaskResult where
  status : TStatus
  output : Option String := none
  error : Option String := none
  iterations : Option Nat := none
  userRequested : Option String := none
  critical : Option Bool := none
deriving DecidableEq, Repr

def maxIterations : Nat := 10

/-- The `while (iterations < maxIterations)` loop of `executeTask`:
`fuel = maxIterations - iterations` remaining passes; `iterations` is
incremented at the top of each pass. -/
def executeTaskGo (parsed : Nat → ParsedResponse) (approval : Nat → Bool) :
    Nat → Nat → TaskResult
  | _, 0 =>
    { status := .failed, error := some "Max iterations reached"
    , iterations := some maxIterations }
  | iterations, fuel + 1 =>
    let i := iterations + 1
    match parsed i with
    | .tool_calls _ => executeTaskGo parsed approval i fuel
    | .response r => { status := .success, output := some r, iterations := some i }
    | .request_approval _ =>
      if approval i then executeTaskGo parsed approval i fuel
      else { status := .failed, error := some "User rejected", userRequested := some "stop" }
    | .malformed => executeTaskGo parsed approval i fuel

def executeTask (parsed : Nat → ParsedResponse) (approval : Nat → Bool) : TaskResult :=
  executeTaskGo parsed approval 0 maxIterations

structure ExecutionResult where
  tasks : List String
  results : List TaskResult
  completed : Bool
deriving DecidableEq, Repr

/-- The per-task loop of `executeTaskList`: every finished task's result is
recorded; a critical failure or a user stop request breaks out of the loop
after recording. -/
def executeTaskListGo (parsedFor : Nat → Nat → ParsedResponse)
    (approvalFor : Nat → Nat → Bool) (idx : Nat) : List String → List TaskResult
  | [] => []
  | _ :: rest =>
    let result := executeTask (parsedFor idx) (approvalFor idx)
    if result.status = .failed ∧ result.critical.getD false = true then [result]
    else if result.userRequested = some "stop" then [result]
    else result :: executeTaskListGo parsedFor approvalFor (idx + 1) rest

def executeTaskList (tasks : List String) (parsedFor : Nat → Nat → ParsedResponse)
    (approvalFor : Nat → Nat → Bool) : ExecutionResult :=
  let results := executeTaskListGo parsedFor approvalFor 0 tasks
  { tasks, results, completed := results.all (fun r => r.status = .success) }

end ExecStage

namespace Arch

/-! `PlanManager` of `ARCHITECTURE.md` §6.2 (`src/domain/plan/PlanManager.ts`)
and the domain types of §8.1 it manipulates.  `crypto.randomUUID()` and
`Date.now()` are explicit parameters; `repository.save` persists the value
returned by `update` and is not needed by the claims about it. -/

structure ArchitectureDecision where
  title : String
  rationale : String
  timestamp : Int
deriving DecidableEq, Repr

structure Architecture where
  overview : String
  dataFlow : String
  decisions : List ArchitectureDecision
deriving DecidableEq, Repr

inductive TaskStatus
  | pending | in_progress | completed | failed
deriving DecidableEq, Repr

structure PlanTask where
  id : String
  description : String
  status : TaskStatus
  notes : Option String := none
  createdAt : Int
  updatedAt : Int
deriving DecidableEq, Repr

inductive LogEntryType
  | task_start | task_complete | thought | tool_call | error | iteration_summary
deriving DecidableEq, Repr

structure PlanLogEntry where
  timestamp : Int
  type : LogEntryType
  content : String
  taskId : Option String := none
deriving DecidableEq, Repr

inductive PlanStatus
  | planning | executing | completed | failed
deriving DecidableEq, Repr

/-- The metadata fields this `PlanManager` reads and writes (§8.1 lists
further optional analytics fields that `create`/`update` never touch). -/
structure PlanMetadata where
  createdAt : Int
  updatedAt : Int
  version : Int
  status : PlanStatus
deriving DecidableEq, Repr

structure Plan where
  planId : String
  sessionId : String
  goal : String
  goals : List String
  architecture : Architecture
  tasks : List PlanTask
  executionLog : List PlanLogEntry
  metadata : PlanMetadata
deriving DecidableEq, Repr

structure ValidationError where
  field : String
  message : String
deriving DecidableEq, Repr

structure PlanUpdate where
  goal : Option String := none
  goals : Option (List String) := none
  architecture : Option Architecture := none
  tasks : Option (List PlanTask) := none
deriving DecidableEq, Repr

structure DomainError where
  message : String
  errors : List ValidationError
deriving DecidableEq, Repr

/-- `PlanManager.create`. -/
def create (sessionId goal : String) (uuid : String) (now : Int) : Plan :=
  { planId := uuid
  , sessionId
  , goal
  , goals := []
  , architecture := { overview := "", dataFlow := "", decisions := [] }
  , tasks := []
  , executionLog := []
  , metadata := { createdAt := now, updatedAt := now, version := 1, status := .planning } }

/-- `PlanManager.validate` (the two rules spelled out in the source; the
source elides its remaining rules behind a comment). -/
def validate (plan : Plan) : List ValidationError :=
  (if (Js.trimChars plan.goal.toList).isEmpty then
    [{ field := "goal", message := "Goal is required" }]
  else []) ++
  (if plan.tasks.any (fun t => (Js.trimChars t.description.toList).isEmpty) then
    [{ field := "tasks", message := "All tasks must have descriptions" }]
  else [])

/-- `PlanManager.update`: spread the updates over the plan, refresh
`updatedAt`, bump `version`, validate, and throw (`Except.error`) on an
invalid result. -/
def update (plan : Plan) (updates : PlanUpdate) (now : Int) : Except DomainError Plan :=
  let updated : Plan :=
    { plan with
      goal := updates.goal.getD plan.goal
    , goals := updates.goals.getD plan.goals
    , architecture := updates.architecture.getD plan.architecture
    , tasks := updates.tasks.getD plan.tasks
    , metadata :=
      { plan.metadata with updatedAt := now, version := plan.metadata.version + 1 } }
  let errors := validate updated
  if errors.isEmpty then .ok updated
  else .error { message := "Invalid plan update", errors }

end Arch

namespace SimpleOrch

/-! `SimpleOrchestrator.processMessage` (`src/domain/agent/SimpleOrchestrator.ts`)
with the injected `OllamaClient.chat` — whose behaviour is pure HTTP
transport — abstracted as an oracle function. -/

inductive Role
  | system | user | assistant
deriving DecidableEq, Repr

structure IChatMessage where
  role : Role
  content : String
  images : Option (List String) := none
deriving DecidableEq, Repr

structure IChatRequest where
  model : String
  messages : List IChatMessage
  stream : Option Bool := none
deriving DecidableEq, Repr

structure IChatResponse where
  model : String
  created_at : String
  message : IChatMessage
  done : Bool
deriving DecidableEq, Repr

inductive ErrorCode
  | TIMEOUT | CONNECTION_REFUSED | HTTP_ERROR | UNKNOWN
deriving DecidableEq, Repr

structure OllamaError where
  message : String
  code : ErrorCode
  statusCode : Option Nat := none
deriving DecidableEq, Repr

/-- `TResult<T, E>` with the source constructor names. -/
inductive TResult (α ε : Type)
  | success (value : α)
  | failure (error : ε)
deriving DecidableEq, Repr

/-- The messages array built by `processMessage`: the system prompt first
when one is configured and truthy (the empty string is falsy), then the user
message. -/
def buildMessages (systemPrompt : Option String) (userMessage : String) : List IChatMessage :=
  (match systemPrompt with
   | some sp => if sp = "" then [] else [{ role := .system, content := sp }]
   | none => []) ++ [{ role := .user, content := userMessage }]

/-- The request `processMessage` hands to the injected client. -/
def builtRequest (model : String) (systemPrompt : Option String) (userMessage : String) :
    IChatRequest :=
  { model, messages := buildMessages systemPrompt userMessage, stream := some false }

/-- `SimpleOrchestrator.processMessage`; `model` and `systemPrompt` are the
constructor-resolved configuration fields, `chat` the injected client call. -/
def processMessage (chat : IChatRequest → TResult IChatResponse OllamaError)
    (model : String) (systemPrompt : Option String) (userMessage : String) :
    TResult String OllamaError :=
  match chat (builtRequest model systemPrompt userMessage) with
  | .success value => .success value.message.content
  | .failure error => .failure error

end SimpleOrch

namespace PlanDoc

/-- The checkbox marker of a list line: the character inside the first
bracketed single-character group (the glyph the tolerant-parsing contract
speaks about). -/
def checkboxMarker : List Char → Option Char
  | '[' :: c :: ']' :: rest =>
    if c = '\n' then checkboxMarker (c :: ']' :: rest) else some c
  | _ :: t => checkboxMarker t
  | [] => none

/-- A line whose checkbox marker is one of the recognised checked glyphs. -/
def markerIsChecked (line : List Char) : Bool :=
  match checkboxMarker line with
  | some c => c = 'x' ∨ c = 'X' ∨ c = '✓' ∨ c = '✔'
  | none => false

end PlanDoc

namespace MessageHistory

theorem countUser_filter (h : List Message) :
    (h.filter (fun m => m.role = Role.user)).length = countUser h := rfl

theorem dropUsers_isSuffix (n : Nat) (h : List Message) : dropUsers n h <:+ h := by
  induction h generalizing n with
  | nil => simp [dropUsers]
  | cons m t ih =>
    by_cases hm : m.role = Role.user
    · match n with
      | 0 => simp [dropUsers, hm]
      | k + 1 =>
        simp only [dropUsers, hm, if_true]
        exact (ih k).trans (List.suffix_cons m t)
    · simp only [dropUsers, hm, if_false]
      exact (ih n).trans (List.suffix_cons m t)

theorem truncateHistory_isSuffix (h : List Message) : truncateHistory h <:+ h := by
  simp only [truncateHistory]
  split
  · exact dropUsers_isSuffix _ h
  · exact List.suffix_rfl

theorem countUser_cons_user (m : Message) (t : List Message) (hm : m.role = Role.user) :
    countUser (m :: t) = countUser t + 1 := by
  simp [countUser, List.filter_cons, hm]

theorem countUser_cons_other (m : Message) (t : List Message) (hm : ¬ m.role = Role.user) :
    countUser (m :: t) = countUser t := by
  simp [countUser, List.filter_cons, hm]

theorem countUser_dropUsers (n : Nat) (h : List Message) (hn : n ≤ countUser h) :
    countUser (dropUsers n h) = countUser h - n := by
  induction h generalizing n with
  | nil =>
    have h0 : countUser ([] : List Message) = 0 := rfl
    rw [h0] at hn
    interval_cases n
    simp [dropUsers]
  | cons m t ih =>
    by_cases hm : m.role = Role.user
    · rw [countUser_cons_user m t hm] at hn ⊢
      match n with
      | 0 => simp [dropUsers, hm, countUser_cons_user m t hm]
      | k + 1 =>
        simp only [dropUsers, hm, if_true]
        rw [ih k (by omega)]
        omega
    · rw [countUser_cons_other m t hm] at hn ⊢
      simp only [dropUsers, hm, if_false]
      exact ih n hn

theorem countUser_truncateHistory (h : List Message) :
    countUser (truncateHistory h) = min (countUser h) maxUserMessages := by
  simp only [truncateHistory]
  simp only [countUser_filter]
  split
  · rename_i hc
    rw [countUser_dropUsers _ _ (by omega)]
    omega
  · rename_i hc
    omega

theorem countUser_append (h g : List Message) :
    countUser (h ++ g) = countUser h + countUser g := by
  simp [countUser, List.filter_append]

theorem countUser_applyOp (h : List Message) (op : HOp) (hb : countUser h ≤ maxUserMessages) :
    countUser (applyOp h op) ≤ maxUserMessages := by
  cases op with
  | user c t =>
    simp only [applyOp, addUserMessage]
    rw [countUser_truncateHistory]
    omega
  | assistant c t =>
    simp only [applyOp, addAssistantMessage, countUser_append]
    have h1 : countUser [{ role := .assistant, content := c, timestamp := t }] = 0 := rfl
    omega

theorem isSuffix_append_singleton {h a : List Message} (m : Message) (hs : h <:+ a) :
    h ++ [m] <:+ a ++ [m] := by
  obtain ⟨t, rfl⟩ := hs
  exact ⟨t, by simp⟩

theorem applyOp_isSuffix (h a : List Message) (op : HOp) (hs : h <:+ a) :
    applyOp h op <:+ a ++ [op.message] := by
  cases op with
  | user c t =>
    exact (truncateHistory_isSuffix _).trans (isSuffix_append_singleton _ hs)
  | assistant c t =>
    exact isSuffix_append_singleton _ hs

theorem foldl_applyOp_count (ops : List HOp) :
    ∀ h, countUser h ≤ maxUserMessages →
      countUser (ops.foldl applyOp h) ≤ maxUserMessages := by
  induction ops with
  | nil => intro h hb; simpa using hb
  | cons op ops ih =>
    intro h hb
    exact ih _ (countUser_applyOp h op hb)

theorem foldl_applyOp_isSuffix (ops : List HOp) :
    ∀ h a, h <:+ a → ops.foldl applyOp h <:+ a ++ allMessages ops := by
  induction ops with
  | nil => intro h a hs; simpa [allMessages] using hs
  | cons op ops ih =>
    intro h a hs
    have step := applyOp_isSuffix h a op hs
    have tail := ih (applyOp h op) (a ++ [op.message]) step
    simpa [allMessages, List.append_assoc] using tail

end MessageHistory

namespace ExecStage

/-- The result `executeTask` returns when the iteration budget is exhausted. -/
def maxIterResult : TaskResult :=
  { status := .failed, error := some "Max iterations reached", iterations := some maxIterations }

theorem executeTaskGo_malformed (parsed : Nat → ParsedResponse) (approval : Nat → Bool)
    (h : ∀ i, parsed i = .malformed) :
    ∀ fuel iterations, executeTaskGo parsed approval iterations fuel = maxIterResult := by
  intro fuel
  induction fuel with
  | zero => intro iterations; rfl
  | succ n ih =>
    intro iterations
    simp only [executeTaskGo, h]
    exact ih (iterations + 1)

theorem executeTask_malformed (parsed : Nat → ParsedResponse) (approval : Nat → Bool)
    (h : ∀ i, parsed i = .malformed) : executeTask parsed approval = maxIterResult :=
  executeTaskGo_malformed parsed approval h maxIterations 0

theorem executeTaskListGo_malformed (parsedFor : Nat → Nat → ParsedResponse)
    (approvalFor : Nat → Nat → Bool) (h : ∀ idx i, parsedFor idx i = .malformed) :
    ∀ tasks idx, executeTaskListGo parsedFor approvalFor idx tasks =
      tasks.map (fun _ => maxIterResult) := by
  intro tasks
  induction tasks with
  | nil => intro idx; rfl
  | cons t rest ih =>
    intro idx
    have hr : executeTask (parsedFor idx) (approvalFor idx) = maxIterResult :=
      executeTask_malformed _ _ (h idx)
    simp only [executeTaskListGo, hr]
    simp [maxIterResult, ih (idx + 1)]

end ExecStage

open PlanDoc in
/-- The well-formed plan of the round-trip unit test shipped with the
serializer (`PROMPTS.md` §4.3.7), whose decisions and log timestamps fall on
exact minutes. -/
def roundtripTestPlan : Plan :=
  { status := .in_progress
  , goal := "Create authentication API"
  , acceptanceCriteria :=
      [ { description := "User registration", completed := true, notes := none }
      , { description := "User login", completed := false, notes := some "Needs JWT" } ]
  , decisionsMade :=
      [ { title := "Use bcrypt", rationale := "Industry standard"
        , alternatives := some ["argon2", "scrypt"], timestamp := some 1704630000000 } ]
  , decisionsRejected := []
  , executionLog :=
      [ { timestamp := some 1704630060000, action := "Created User model"
        , result := "Success", toolsUsed := ["write_file"] } ]
  , metadata := { createdAt := 1704630000000, updatedAt := 1704630120000, version := 2 } }

set_option maxRecDepth 10000 in
/-- Claim C1: the serializer/deserializer round-trip does NOT hold — the
code contradicts its own round-trip test.  Deserializing the serialization
of the test plan loses the (first and only) decision of `decisionsMade` and
the (first and only) entry of `executionLog`, because `extractSection`
trims the newline in front of the first `### ` sub-heading and
`split(/\n### /).slice(1)` then discards that sub-heading; every other field
survives unchanged. -/
theorem roundtrip_drops_first_decision_and_log :
    PlanDoc.deserialize (PlanDoc.serialize roundtripTestPlan) 999 =
      .success { roundtripTestPlan with decisionsMade := [], executionLog := [] } ∧
    roundtripTestPlan.decisionsMade ≠ [] ∧ roundtripTestPlan.executionLog ≠ [] := by
  refine ⟨by decide, by decide, by decide⟩

/-- Claim C2 counterexample: an arbitrary input string need not produce a
default Plan or a ParseFailure — deserialization always succeeds, and a
fragment carrying a status line yields a non-default plan (its status is not
`planning`). -/
theorem deserialize_arbitrary_not_default :
    PlanDoc.deserialize "**Status:** completed" 555 =
      .success { PlanDoc.getDefaultPlan 555 with status := .completed } ∧
    PlanDoc.PlanStatus.completed ≠ PlanDoc.PlanStatus.planning := by
  refine ⟨by decide, by decide⟩

/-- Claim C2 (amended): `deserialize` is total — it returns a success
`Result` on every input (none of the operations the source performs on a
string can throw, so the `catch` branch producing a `ParseFailure` is
unreachable); the empty string and a single newline yield exactly the
default plan (`status = planning`, `version = 1`, empty collections, both
timestamps the current time), and in general a missing or malformed header
block synthesizes those metadata defaults rather than failing. -/
theorem deserialize_total_and_default_on_empty :
    (∀ (s : String) (now : Int), ∃ p, PlanDoc.deserialize s now = .success p) ∧
    (∀ now : Int, PlanDoc.deserialize "" now = .success (PlanDoc.getDefaultPlan now)) ∧
    (∀ now : Int, PlanDoc.deserialize "\n" now = .success (PlanDoc.getDefaultPlan now)) :=
  ⟨fun _ _ => ⟨_, rfl⟩, fun _ => rfl, fun _ => rfl⟩

set_option maxRecDepth 10000 in
/-- Claim C4: the placeholder a serialized empty Acceptance Criteria section
carries is NOT parsed back to an empty collection — the code contradicts the
serializer's round-trip contract.  Serializing a plan with empty
`acceptanceCriteria` and deserializing the result yields one phantom
criterion built from the placeholder line (the placeholder starts with
`- [ ]`, so it passes the checkbox-line filter and has a non-empty
description), whereas a document with no Acceptance Criteria section at all
yields the empty collection; the other four sections' placeholders do parse
back to empty collections, as the first conjunct also records. -/
theorem acceptance_placeholder_not_empty :
    PlanDoc.deserialize (PlanDoc.serialize (PlanDoc.getDefaultPlan 1704630000000)) 42 =
      .success { PlanDoc.getDefaultPlan 1704630000000 with
        acceptanceCriteria :=
          [ { description := "[Criteria will be added once goal is defined]",
              completed := false, notes := none } ] } ∧
    PlanDoc.deserialize "# Plan: x" 42 = .success (PlanDoc.getDefaultPlan 42) ∧
    ([ { description := "[Criteria will be added once goal is defined]",
         completed := false, notes := none } ] : List PlanDoc.AcceptanceCriterion) ≠ [] := by
  refine ⟨by decide, by decide, by decide⟩

/-- Claim C3 counterexample: a checkbox line whose marker is a recognised
checked glyph but whose description is empty (`- [x]`) is dropped by the
parser, so the number of `completed = true` criteria (zero) differs from the
number of recognised-checked lines (one). -/
theorem checkbox_count_mismatch_empty_description :
    PlanDoc.extractSection "## Acceptance Criteria\n- [x]".toList "Acceptance Criteria" =
      some "- [x]".toList ∧
    PlanDoc.markerIsChecked "- [x]".toList = true ∧
    ¬ ((PlanDoc.parseAcceptanceCriteria "## Acceptance Criteria\n- [x]".toList).countP
        (fun c => c.completed) =
      (((Js.splitOnChar '\n' "- [x]".toList).filter PlanDoc.isDashLine).countP
        PlanDoc.markerIsChecked)) := by
  refine ⟨by decide, by decide, by decide⟩

/-- Claim C3 (amended): for a document with an Acceptance Criteria section,
provided every checkbox line of the section parses to a non-empty
description and contains a bracketed checked glyph only as its own marker
(the source tests the glyph pattern against the whole line, and drops
entries with an empty description), the number of parsed criteria with
`completed = true` equals the number of lines whose checkbox marker is one
of the recognised checked glyphs (x, X, ✓, ✔), whichever glyph each line
uses; and every such line with any other marker, including a bare space,
parses as `completed = false`. -/
theorem checkbox_glyph_count (body sec : List Char)
    (hsec : PlanDoc.extractSection body "Acceptance Criteria" = some sec)
    (hdesc : ∀ l ∈ (Js.splitOnChar '\n' sec).filter PlanDoc.isDashLine,
      (PlanDoc.parseCriterionLine l).description ≠ "")
    (hglyph : ∀ l ∈ (Js.splitOnChar '\n' sec).filter PlanDoc.isDashLine,
      PlanDoc.hasCheckedBox l = PlanDoc.markerIsChecked l) :
    (PlanDoc.parseAcceptanceCriteria body).countP (fun c => c.completed) =
      ((Js.splitOnChar '\n' sec).filter PlanDoc.isDashLine).countP PlanDoc.markerIsChecked ∧
    ∀ l ∈ (Js.splitOnChar '\n' sec).filter PlanDoc.isDashLine,
      PlanDoc.markerIsChecked l = false → (PlanDoc.parseCriterionLine l).completed = false := by
  constructor
  · simp only [PlanDoc.parseAcceptanceCriteria, hsec]
    have hfil : (((Js.splitOnChar '\n' sec).filter PlanDoc.isDashLine).map
        PlanDoc.parseCriterionLine).filter (fun c => c.description ≠ "") =
        ((Js.splitOnChar '\n' sec).filter PlanDoc.isDashLine).map PlanDoc.parseCriterionLine := by
      apply List.filter_eq_self.mpr
      intro a ha
      obtain ⟨l, hlmem, rfl⟩ := List.mem_map.mp ha
      simpa using hdesc l hlmem
    rw [hfil, List.countP_map]
    apply List.countP_congr
    intro l hlmem
    have h1 : ((fun c => c.completed) ∘ PlanDoc.parseCriterionLine) l =
        PlanDoc.hasCheckedBox l := rfl
    rw [h1, hglyph l hlmem]
  · intro l hlmem hmark
    have h2 : (PlanDoc.parseCriterionLine l).completed = PlanDoc.hasCheckedBox l := rfl
    rw [h2, hglyph l hlmem, hmark]

/-- Concrete instance of `checkbox_glyph_count`: a section mixing the `x`
and `✓` glyphs with an unchecked line has exactly two `completed = true`
criteria. -/
theorem checkbox_glyph_count_witness :
    (PlanDoc.parseAcceptanceCriteria
        "## Acceptance Criteria\n- [x] alpha\n- [✓] beta\n- [ ] gamma".toList).countP
      (fun c => c.completed) =
      ((Js.splitOnChar '\n' "- [x] alpha\n- [✓] beta\n- [ ] gamma".toList).filter
        PlanDoc.isDashLine).countP PlanDoc.markerIsChecked :=
  (checkbox_glyph_count "## Acceptance Criteria\n- [x] alpha\n- [✓] beta\n- [ ] gamma".toList
    "- [x] alpha\n- [✓] beta\n- [ ] gamma".toList
    (by decide) (by decide) (by decide)).1

/-- Claim C5: during the Executing phase, a response that is neither a set
of tool calls nor a final answer (nor an approval request) consumes one
iteration of the current task; for a task whose every attempt parses as such
a malformed response, `executeTask` performs exactly the iteration cap
`maxIterations = 10` attempts, returns a failed result recording that cap,
and `executeTaskList` records that failure (it is neither critical nor a
user stop) and continues with every remaining task instead of looping or
aborting. -/
theorem executing_malformed_hits_iteration_cap
    (parsedFor : Nat → Nat → ExecStage.ParsedResponse) (approvalFor : Nat → Nat → Bool)
    (tasks : List String) (h : ∀ idx i, parsedFor idx i = .malformed) :
    (∀ idx, ExecStage.executeTask (parsedFor idx) (approvalFor idx) =
      ExecStage.maxIterResult) ∧
    ExecStage.maxIterations = 10 ∧
    ExecStage.maxIterResult.status = .failed ∧
    ExecStage.maxIterResult.iterations = some 10 ∧
    (ExecStage.executeTaskList tasks parsedFor approvalFor).results =
      tasks.map (fun _ => ExecStage.maxIterResult) := by
  refine ⟨fun idx => ExecStage.executeTask_malformed _ _ (h idx), rfl, rfl, rfl, ?_⟩
  show ExecStage.executeTaskListGo parsedFor approvalFor 0 tasks = _
  exact ExecStage.executeTaskListGo_malformed parsedFor approvalFor h tasks 0

/-- Concrete instance of `executing_malformed_hits_iteration_cap`: two tasks
whose every attempt is malformed both get the capped failure result. -/
theorem executing_malformed_hits_iteration_cap_witness :
    (ExecStage.executeTaskList ["first task", "second task"]
        (fun _ _ => ExecStage.ParsedResponse.malformed) (fun _ _ => true)).results =
      [ExecStage.maxIterResult, ExecStage.maxIterResult] :=
  (executing_malformed_hits_iteration_cap
    (fun _ _ => ExecStage.ParsedResponse.malformed) (fun _ _ => true)
    ["first task", "second task"] (fun _ _ => rfl)).2.2.2.2

/-- Claim C6: when the injected deserializer fails on the stored plan text,
`loadPlan` issues exactly one corrective model request (the oracle call
counted by the second component), re-runs the deserializer on the model's
response, and if that also fails returns the freshly-created default plan —
`status = planning`, empty goal, empty collections, `version = 1` — never
propagating the parse failure.  (With the concrete `PlanDeserializer`
deserialization never fails, so this recovery path is exercised only for
other injected deserializers.) -/
theorem loadPlan_single_retry_then_default
    (des : String → PlanDoc.DResult) (ollamaFix : String → PlanDoc.ParseError → String)
    (now : Int) (markdown : String) (e e' : PlanDoc.ParseError)
    (h1 : des markdown = .failure e)
    (h2 : des (ollamaFix markdown e) = .failure e') :
    PlanDoc.loadPlan des ollamaFix now markdown = (PlanDoc.getDefaultPlan now, 1) ∧
    PlanDoc.getDefaultPlan now =
      { status := .planning, goal := "", acceptanceCriteria := [], decisionsMade := []
      , decisionsRejected := [], executionLog := []
      , metadata := { createdAt := now, updatedAt := now, version := 1 } } := by
  refine ⟨?_, rfl⟩
  simp only [PlanDoc.loadPlan, h1, PlanDoc.retryWithLLM, h2]

/-- Concrete instance of `loadPlan_single_retry_then_default`: a deserializer
that always fails makes `loadPlan` return the default plan after one model
call. -/
theorem loadPlan_single_retry_then_default_witness :
    PlanDoc.loadPlan
        (fun _ => .failure { message := "bad", markdown := "", suggestedPrompt := "fix" })
        (fun _ _ => "still bad") 7 "not a plan" =
      (PlanDoc.getDefaultPlan 7, 1) :=
  (loadPlan_single_retry_then_default
    (fun _ => .failure { message := "bad", markdown := "", suggestedPrompt := "fix" })
    (fun _ _ => "still bad") 7 "not a plan"
    { message := "bad", markdown := "", suggestedPrompt := "fix" }
    { message := "bad", markdown := "", suggestedPrompt := "fix" } rfl rfl).1

/-- Claim C7: after any sequence of user/assistant appends the manager's
history holds at most `maxUserMessages = 5` user-authored messages, and the
retained history is always a suffix of the full append-ordered transcript —
eviction removes the oldest messages first (strict FIFO), keeping the
assistant messages that follow the oldest retained user message. -/
theorem history_user_window_bounded_fifo (ops : List MessageHistory.HOp) :
    MessageHistory.countUser (MessageHistory.runOps ops) ≤ MessageHistory.maxUserMessages ∧
    MessageHistory.maxUserMessages = 5 ∧
    MessageHistory.runOps ops <:+ MessageHistory.allMessages ops := by
  refine ⟨?_, rfl, ?_⟩
  · exact MessageHistory.foldl_applyOp_count ops [] (by simp [MessageHistory.countUser])
  · have h := MessageHistory.foldl_applyOp_isSuffix ops [] [] List.suffix_rfl
    simpa using h

/-- Claim C8: `create` stamps `createdAt = updatedAt = now` and
`version = 1`; every successful `update` (one returning `.ok`, i.e. one that
passes validation instead of throwing) bumps `version` by exactly one,
leaves `createdAt` unchanged, and sets `updatedAt` to the current time — so
`updatedAt ≥ createdAt` is preserved whenever the clock has not run
backwards past `createdAt`, and `version` is monotonically non-decreasing
over a plan's lifetime. -/
theorem plan_version_and_timestamp_invariants :
    (∀ (sessionId goal uuid : String) (now : Int),
      (Arch.create sessionId goal uuid now).metadata.createdAt = now ∧
      (Arch.create sessionId goal uuid now).metadata.updatedAt = now ∧
      (Arch.create sessionId goal uuid now).metadata.version = 1 ∧
      (Arch.create sessionId goal uuid now).metadata.createdAt ≤
        (Arch.create sessionId goal uuid now).metadata.updatedAt) ∧
    (∀ (plan : Arch.Plan) (updates : Arch.PlanUpdate) (now : Int) (q : Arch.Plan),
      plan.metadata.createdAt ≤ now →
      Arch.update plan updates now = .ok q →
      q.metadata.version = plan.metadata.version + 1 ∧
      q.metadata.createdAt = plan.metadata.createdAt ∧
      q.metadata.updatedAt = now ∧
      q.metadata.createdAt ≤ q.metadata.updatedAt) := by
  refine ⟨fun _ _ _ _ => ⟨rfl, rfl, rfl, le_refl _⟩, ?_⟩
  intro plan updates now q hle hok
  simp only [Arch.update] at hok
  split at hok
  · cases hok
    exact ⟨rfl, rfl, rfl, hle⟩
  · cases hok

/-- The plan the `plan_version_and_timestamp_invariants` witness updates. -/
def archPlan0 : Arch.Plan := Arch.create "session-1" "build the API" "uuid-1" 10

/-- The result of updating `archPlan0` at time 20 with no field changes. -/
def archPlan1 : Arch.Plan :=
  { archPlan0 with
    metadata := { createdAt := 10, updatedAt := 20, version := 2, status := .planning } }

/-- Concrete instance of `plan_version_and_timestamp_invariants`: updating a
freshly created plan at a later clock bumps its version from 1 to 2 and
keeps `createdAt ≤ updatedAt`. -/
theorem plan_version_and_timestamp_invariants_witness :
    archPlan1.metadata.version = archPlan0.metadata.version + 1 ∧
    archPlan1.metadata.createdAt = archPlan0.metadata.createdAt ∧
    archPlan1.metadata.updatedAt = 20 ∧
    archPlan1.metadata.createdAt ≤ archPlan1.metadata.updatedAt :=
  plan_version_and_timestamp_invariants.2 archPlan0 {} 20 archPlan1 (by decide) (by rfl)

/-- Claim C9 counterexample: two `savePlan` writes carrying the same plan
version against the same stored plan both succeed — the second is applied
and replaces the stored text (which the first had written) instead of being
rejected with a version conflict; `savePlan` performs no version check at
all. -/
theorem savePlan_same_version_not_rejected :
    (PlanDoc.getDefaultPlan 100).metadata.version =
      ({ PlanDoc.getDefaultPlan 200 with goal := "changed" } : PlanDoc.Plan).metadata.version ∧
    PlanDoc.savePlan "session" { PlanDoc.getDefaultPlan 200 with goal := "changed" }
        (PlanDoc.savePlan "session" (PlanDoc.getDefaultPlan 100) (fun _ => none))
        (PlanDoc.planPath "session") =
      some (PlanDoc.serialize { PlanDoc.getDefaultPlan 200 with goal := "changed" }) ∧
    PlanDoc.serialize { PlanDoc.getDefaultPlan 200 with goal := "changed" } ≠
      PlanDoc.serialize (PlanDoc.getDefaultPlan 100) := by
  refine ⟨by decide, ?_, by decide⟩
  simp [PlanDoc.savePlan]

/-- Claim C9 (amended): persisting a plan is an unconditional write — the
serialized plan text is stored at the plan path with no comparison against
the stored version, so of two successive writes the last one wins
regardless of either plan's `metadata.version`. -/
theorem savePlan_writes_unconditionally (sessionPath : String) (p1 p2 : PlanDoc.Plan)
    (store : PlanDoc.Store) :
    PlanDoc.savePlan sessionPath p1 store (PlanDoc.planPath sessionPath) =
      some (PlanDoc.serialize p1) ∧
    PlanDoc.savePlan sessionPath p2 (PlanDoc.savePlan sessionPath p1 store)
        (PlanDoc.planPath sessionPath) = some (PlanDoc.serialize p2) := by
  constructor <;> simp [PlanDoc.savePlan]

/-- Claim C10: `SimpleOrchestrator.processMessage` succeeds exactly when the
injected `OllamaClient.chat` call succeeds — returning precisely the
response message's `content` — and passes a client failure's `OllamaError`
through unchanged; the request it sends carries the configured model, a
non-streaming flag, and a messages array ending in the user message,
preceded by exactly one system message when a (non-empty, hence truthy)
system prompt is configured and by none otherwise. -/
theorem processMessage_passthrough_and_request_shape
    (chat : SimpleOrch.IChatRequest →
      SimpleOrch.TResult SimpleOrch.IChatResponse SimpleOrch.OllamaError)
    (model : String) (systemPrompt : Option String) (userMessage : String) :
    (∀ resp, chat (SimpleOrch.builtRequest model systemPrompt userMessage) = .success resp →
      SimpleOrch.processMessage chat model systemPrompt userMessage =
        .success resp.message.content) ∧
    (∀ e, chat (SimpleOrch.builtRequest model systemPrompt userMessage) = .failure e →
      SimpleOrch.processMessage chat model systemPrompt userMessage = .failure e) ∧
    (SimpleOrch.builtRequest model systemPrompt userMessage).model = model ∧
    (SimpleOrch.builtRequest model systemPrompt userMessage).stream = some false ∧
    (match systemPrompt with
      | some sp =>
        if sp = "" then
          (SimpleOrch.builtRequest model systemPrompt userMessage).messages =
            [{ role := .user, content := userMessage }]
        else
          (SimpleOrch.builtRequest model systemPrompt userMessage).messages =
            [{ role := .system, content := sp }, { role := .user, content := userMessage }]
      | none =>
        (SimpleOrch.builtRequest model systemPrompt userMessage).messages =
          [{ role := .user, content := userMessage }]) := by
  refine ⟨?_, ?_, rfl, rfl, ?_⟩
  · intro resp h
    simp only [SimpleOrch.processMessage, h]
  · intro e h
    simp only [SimpleOrch.processMessage, h]
  · cases systemPrompt with
    | none => rfl
    | some sp =>
      by_cases hsp : sp = "" <;>
        simp [SimpleOrch.builtRequest, SimpleOrch.buildMessages, hsp]

/-- The canned client response used by the `processMessage` witness. -/
def chatRespW : SimpleOrch.IChatResponse :=
  { model := "deepseek-coder-v2:16b", created_at := "2026-01-07T00:00:00Z"
  , message := { role := .assistant, content := "hello back" }, done := true }

/-- Concrete instance of `processMessage_passthrough_and_request_shape`: a
client that succeeds makes `processMessage` return the assistant content. -/
theorem processMessage_passthrough_witness :
    SimpleOrch.processMessage (fun _ => .success chatRespW) "deepseek-coder-v2:16b"
      (some "be nice") "hi" = .success "hello back" :=
  (processMessage_passthrough_and_request_shape (fun _ => .success chatRespW)
    "deepseek-coder-v2:16b" (some "be nice") "hi").1 chatRespW rfl
